import Mathlib

/-!
Verification of `scripts/inspect_potx.py`.

The script opens a presentation document (via the python-pptx library),
walks slides → shapes → text/images and prints a report, and in `main`
optionally shells out to LibreOffice to convert `.potx`/`.odp` inputs,
using a temporary directory that is cleaned up in a `finally` block.

The embedding below models:
* the Python string operations the script uses (`[:n]` slicing,
  `strip`, `replace('\n', ' ')`, `lower`, `endswith`, `startswith`,
  `str.join`, `os.path.splitext` / `os.path.basename`, `enumerate`);
* the document object graph exposed by python-pptx as read-only records,
  with every accessor that the script wraps in `try/except` modelled as a
  `PyResult` value (`.raised` = the accessor raises when called);
* `summarize_presentation` as a pure function from the document graph to
  the list of printed lines (one list element per `print` call);
* `main` as a function from an abstract environment (CLI argument,
  filesystem, presence of `soffice`, success of conversion/inspection)
  to the trace of effects it performs plus its outcome.
-/

/-- `PyResult α`: result of calling a Python accessor that may raise.
`.raised` models the accessor raising an exception (the script never
inspects the exception object, only catches it). -/
inductive PyResult (α : Type) where
  | ok (a : α)
  | raised
deriving DecidableEq

/-- Model of Python `s[:n]` string slicing (first `n` characters). -/
def pyTake (n : Nat) (s : String) : String := ⟨s.data.take n⟩

/-- Model of Python `str.strip()`: drop leading and trailing whitespace. -/
def pyStrip (s : String) : String :=
  ⟨((s.data.dropWhile Char.isWhitespace).reverse.dropWhile Char.isWhitespace).reverse⟩

/-- Model of Python `str.replace('\n', ' ')` (a one-character replacement
is a character map). -/
def pyReplaceNL (s : String) : String :=
  ⟨s.data.map (fun c => if c = '\n' then ' ' else c)⟩

/-- Model of Python `str.lower()`. -/
def pyLower (s : String) : String := ⟨s.data.map Char.toLower⟩

/-- Model of Python `s.endswith(t)`. -/
def pyEndsWith (s t : String) : Bool := t.data.isSuffixOf s.data

/-- Model of Python `s.startswith(t)`. -/
def pyStartsWith (s t : String) : Bool := t.data.isPrefixOf s.data

/-- Model of Python `' | '.join(ts)` as used for the notes texts. -/
def pyJoin : List String → String
  | [] => ""
  | [t] => t
  | t :: u :: rest => t ++ " | " ++ pyJoin (u :: rest)

/-- Model of Python `enumerate(xs, start)`. -/
def pyEnum (start : Nat) : List α → List (Nat × α)
  | [] => []
  | a :: rest => (start, a) :: pyEnum (start + 1) rest

/-- Index of the last occurrence of `c` in `l` (Python `str.rfind`),
`none` when absent. -/
def rIdx (l : List Char) (c : Char) : Option Nat :=
  (((pyEnum 0 l).filter (fun p => p.2 == c)).map Prod.fst).getLast?

/-- Model of `os.path.splitext(p)[1]` on the character list: the extension
starts at the last dot, provided that dot lies in the basename (after the
last `/`) and the basename has a non-dot character before it (CPython's
leading-dots rule). -/
def pyExtData (l : List Char) : List Char :=
  match rIdx l '.' with
  | none => []
  | some di =>
    match rIdx l '/' with
    | none =>
      if (List.range di).any (fun j => l.getD j '.' != '.') then l.drop di else []
    | some si =>
      if si + 1 ≤ di then
        if ((List.range di).drop (si + 1)).any (fun j => l.getD j '.' != '.') then
          l.drop di
        else []
      else []

/-- Model of `os.path.splitext(p)[1]`. -/
def pyExt (s : String) : String := ⟨pyExtData s.data⟩

/-- Model of `os.path.splitext(p)[0]` (everything before the extension). -/
def pyRoot (s : String) : String :=
  ⟨s.data.take (s.data.length - (pyExtData s.data).length)⟩

/-- Model of `os.path.basename(p)`. -/
def pyBasename (s : String) : String :=
  match rIdx s.data '/' with
  | none => s
  | some si => ⟨s.data.drop (si + 1)⟩

/-- An embedded image as exposed by python-pptx (`shape.image`):
`filenameAttr = none` models the `filename` attribute being absent, in
which case `getattr(img, 'filename', 'embedded')` yields `'embedded'`. -/
structure Image where
  filenameAttr : Option String
  blob : List Nat
  ext : String
deriving DecidableEq

/-- A shape on a slide, as the script reads it.  Fields the script
accesses bare are plain values; accessors the script wraps in
`try/except` (`placeholder_format.idx`, `image`/`image.blob`) are
`PyResult`s.  `shapeId` models object identity (distinct shape objects
get distinct ids), `typeName` is `stype.name if hasattr(stype, 'name')
else str(stype)`, `isPicture` is `stype == MSO_SHAPE_TYPE.PICTURE`,
`hasImageAttr` is `hasattr(shape, 'image')`. -/
structure Shape where
  shapeId : Nat
  typeName : String
  isPicture : Bool
  hasImageAttr : Bool
  isPlaceholder : Bool
  placeholderIdx : PyResult Nat
  hasTextFrame : Bool
  text : String
  image : PyResult Image
deriving DecidableEq

/-- A relationship-linked part of a slide (`slide.part.related_parts`):
`blob = .raised` models `rel.blob` raising, in which case the size prints
as `unknown`. -/
structure RelPart where
  partname : String
  contentType : String
  blob : PyResult (List Nat)
deriving DecidableEq

/-- A slide: ordered shapes, the `slide.shapes.title` accessor (which the
script wraps in `try/except`, and which may yield `None`), the layout
(`getattr(slide, 'slide_layout', None)` then `getattr(layout, 'name',
None)`), the `slide.notes_slide` accessor (wrapped in `try/except`), and
the relationship-linked parts. -/
structure Slide where
  shapes : List Shape
  titleAccess : PyResult (Option Shape)
  layout : Option (Option String)
  notesAccess : PyResult (List Shape)
  relatedParts : List RelPart

/-- The opened presentation: an ordered list of slides. -/
structure Prs where
  slides : List Slide

/-- `shape.text.strip().replace('\n', ' ')`, the processing applied to
every piece of text the script prints. -/
def processText (s : String) : String := pyReplaceNL (pyStrip s)

/-- `txt[:300] + ("..." if len(txt) > 300 else "")`: the shape-text
snippet. -/
def snippet (txt : String) : String :=
  pyTake 300 txt ++ (if 300 < txt.length then "..." else "")

/-- The `' [TITLE]'` marker appended to a shape line when
`shape == getattr(slide.shapes, 'title', None)`; the comparison is
wrapped in `try/except`, so a raising accessor contributes nothing. -/
def titleMark (ta : PyResult (Option Shape)) (sh : Shape) : String :=
  match ta with
  | .ok (some t) => if sh = t then " [TITLE]" else ""
  | _ => ""

/-- The `' (placeholder idx=...)'` field: printed only for placeholder
shapes, and omitted when `shape.placeholder_format.idx` raises (the
access is wrapped in `try/except`). -/
def phPart (sh : Shape) : String :=
  if sh.isPlaceholder then
    match sh.placeholderIdx with
    | .ok pidx => " (placeholder idx=" ++ (toString pidx ++ ")")
    | .raised => ""
  else ""

/-- The `" | text='...'"` field, present when the shape has a text
frame. -/
def textPart (sh : Shape) : String :=
  if sh.hasTextFrame then " | text='" ++ (snippet (processText sh.text) ++ "'") else ""

/-- The `" | picture: ..."` field: attempted whenever the shape type is
PICTURE or the shape exposes an `image` attribute; if reading the image
or its blob raises, the fixed fallback is printed instead. -/
def picPart (sh : Shape) : String :=
  if sh.isPicture || sh.hasImageAttr then
    match sh.image with
    | .ok img =>
      " | picture: " ++
        ((match img.filenameAttr with | some fn => fn | none => "embedded") ++
         (" (" ++ (toString img.blob.length ++ (" bytes, ext=" ++ (img.ext ++ ")")))))
    | .raised => " | picture: (could not read image)"
  else ""

/-- One shape line, `si` the 1-based index of the shape on its slide:
`f"Shape {si}: {typename}"` followed by the optional fields in the order
the script appends them. -/
def shapeLine (ta : PyResult (Option Shape)) (si : Nat) (sh : Shape) : String :=
  "Shape " ++
    (toString si ++ (": " ++ (sh.typeName ++
      (titleMark ta sh ++ (phPart sh ++ (textPart sh ++ picPart sh))))))

/-- The `Title:` line of a slide (empty list = no line printed): present
only when `slide.shapes.title` yields a shape with a text frame whose
stripped text is non-empty (Python truthiness of `title_text`). -/
def titleLines (slide : Slide) : List String :=
  match slide.titleAccess with
  | .ok (some ts) =>
    if ts.hasTextFrame then
      if processText ts.text ≠ "" then ["Title: " ++ processText ts.text] else []
    else []
  | _ => []

/-- The `Layout:` line: printed when `slide.slide_layout` exists and its
`name` is present and non-empty (Python truthiness of `name`). -/
def layoutLines (slide : Slide) : List String :=
  match slide.layout with
  | some (some nm) => if nm ≠ "" then ["Layout: " ++ nm] else []
  | _ => []

/-- The non-empty processed texts of the text-bearing notes shapes, in
order (the loop body `if has_text_frame: text = ...; if text:
append`). -/
def notesTextsOf (nshapes : List Shape) : List String :=
  nshapes.filterMap (fun n =>
    if n.hasTextFrame then
      if processText n.text ≠ "" then some (processText n.text) else none
    else none)

/-- The `Notes:` line: joined with `' | '`, truncated to 400 characters;
nothing is printed when `slide.notes_slide` raises or no notes text is
found. -/
def notesLines (slide : Slide) : List String :=
  match slide.notesAccess with
  | .ok ns =>
    let texts := notesTextsOf ns
    if texts.isEmpty then [] else ["Notes: " ++ pyTake 400 (pyJoin texts)]
  | .raised => []

/-- `f"{rel.partname} ({ct}, {size} bytes)"` where `size` is `len(rel.blob)`
or `'unknown'` when reading the blob raises. -/
def partDesc (rel : RelPart) : String :=
  rel.partname ++ (" (" ++ (rel.contentType ++ (", " ++
    ((match rel.blob with | .ok b => toString b.length | .raised => "unknown") ++ " bytes)"))))

/-- The descriptor strings of the relationship-linked parts whose content
type starts with `image/`, in order. -/
def imageItems (parts : List RelPart) : List String :=
  parts.filterMap (fun rel =>
    if pyStartsWith rel.contentType "image/" then some (partDesc rel) else none)

/-- The `Images in slide:` block: the header plus one `' - ...'` line per
image part, or nothing when there is no image part. -/
def imageLines (slide : Slide) : List String :=
  let imgs := imageItems slide.relatedParts
  if imgs.isEmpty then [] else
    "Images in slide:" :: imgs.map (fun it => " - " ++ it)

/-- One slide section of the report, `i` the 1-based slide number. -/
def slideSection (i : Nat) (s : Slide) : List String :=
  ("--- Slide " ++ (toString i ++ " ---"))
    :: (titleLines s ++ layoutLines s
        ++ (pyEnum 1 s.shapes).map (fun p => shapeLine s.titleAccess p.1 p.2)
        ++ notesLines s ++ imageLines s ++ [""])

/-- The whole printed report of `summarize_presentation(path)`: one list
element per `print` call, in order. -/
def summarize_presentation (prs : Prs) (path : String) : List String :=
  ["File: " ++ path, "Slide count: " ++ toString prs.slides.length, ""]
    ++ ((pyEnum 1 prs.slides).map (fun p => slideSection p.1 p.2)).flatten

example : pyTake 3 "abcdef" = "abc" := rfl
example : pyStrip "  a b \n" = "a b" := rfl
example : pyReplaceNL "a\nb" = "a b" := rfl
example : pyJoin ["a", "b", "c"] = "a | b | c" := rfl
example : pyExt "disco-template.potx" = ".potx" := rfl
example : pyExt "a/b.c/file" = "" := rfl
example : pyExt ".potx" = "" := rfl
example : pyLower (pyExt "x/A.POTX") = ".potx" := rfl
example : pyRoot "dir/a.potx" = "dir/a" := rfl
example : pyBasename "dir/a.potx" = "a.potx" := rfl
example : pyEndsWith "a.pptx" ".pptx" = true := rfl
example : "ab".data = ['a', 'b'] := rfl
example : String.mk ['a', 'b'] = "ab" := rfl

/-- The abstract environment `main` runs in: the CLI file argument,
`os.path.exists`, `shutil.which('soffice')`, the name `tempfile.mkdtemp`
returns, whether `subprocess.run(..., check=True)` succeeds, and whether
`summarize_presentation` completes without raising. -/
structure Env where
  fileArg : Option String
  existsF : String → Bool
  soffice : Option String
  tmpName : String
  convertOk : Bool
  inspectOk : Bool

/-- The externally visible effects `main` performs, in order. -/
inductive Event where
  | mkdtemp (dir : String)
  | runSoffice (sof : String) (file : String) (outdir : String)
  | printLine (s : String)
  | inspect (path : String)
  | rmtree (dir : String)
deriving DecidableEq

/-- How the `main` process ends: normally, with an argparse usage error
(`parser.error`), or with an unhandled exception. -/
inductive Outcome where
  | ok
  | usageError
  | exc
deriving DecidableEq

/-- The default candidate filenames tried, in order, when no file
argument is given. -/
def defaultCandidates : List String :=
  ["disco-template.pptx", "disco-template.potx", "disco-template.odp"]

/-- The `for cand in ...: if os.path.exists(cand): ...; break` loop:
first existing candidate, `none` when no candidate exists. -/
def firstExisting (existsF : String → Bool) : List String → Option String
  | [] => none
  | c :: rest => if existsF c then some c else firstExisting existsF rest

/-- The input file `main` proceeds with: the CLI argument if given,
otherwise the first existing default candidate. -/
def resolveFile (env : Env) : Option String :=
  match env.fileArg with
  | some f => some f
  | none => firstExisting env.existsF defaultCandidates

/-- The conversion step of `main` on input file `f`: the effects
performed, the path handed to `summarize_presentation`, and the created
temporary directory (if any).  Mirrors the source: convert only when the
extension (lowered) is `.potx`/`.odp` and the lowered name does not end
in `.pptx`; without `soffice` print a warning and keep the original
path; with `soffice` make a temp dir, run the converter (`check=True`,
`CalledProcessError` caught), and use the produced `.pptx` only if it
exists. -/
def convertStep (env : Env) (f : String) : List Event × String × Option String :=
  let ext := pyLower (pyExt f)
  if (ext == ".potx" || ext == ".odp") && !(pyEndsWith (pyLower f) ".pptx") then
    match env.soffice with
    | some sof =>
      let d := env.tmpName
      if env.convertOk then
        let candidate := d ++ "/" ++ (pyRoot (pyBasename f) ++ ".pptx")
        if env.existsF candidate then
          ([Event.mkdtemp d, Event.runSoffice sof f d,
            Event.printLine ("Converted " ++ (f ++ (" -> " ++ candidate)))],
           candidate, some d)
        else
          ([Event.mkdtemp d, Event.runSoffice sof f d,
            Event.printLine "Conversion produced no .pptx; will attempt to open original file"],
           f, some d)
      else
        ([Event.mkdtemp d, Event.runSoffice sof f d,
          Event.printLine "LibreOffice conversion failed; attempting to open original file"],
         f, some d)
    | none =>
      ([Event.printLine "LibreOffice (soffice) not found; cannot auto-convert .potx/.odp"],
       f, none)
  else ([], f, none)

/-- The whole of `main`: resolve the input file (usage error when there
is none), run the conversion step, call `summarize_presentation`, and in
the `finally` block remove the temporary directory if one was created
(the removal itself is wrapped in `try/except pass`, so it cannot mask
the pending exception).  An exception from inspection propagates after
the cleanup. -/
def mainRun (env : Env) : List Event × Outcome :=
  match resolveFile env with
  | none => ([], Outcome.usageError)
  | some f =>
    let step := convertStep env f
    (step.1 ++ [Event.inspect step.2.1]
       ++ (match step.2.2 with | some d => [Event.rmtree d] | none => []),
     if env.inspectOk then Outcome.ok else Outcome.exc)

example :
    mainRun ⟨some "a.potx", fun _ => false, none, "T", true, true⟩ =
      ([Event.printLine "LibreOffice (soffice) not found; cannot auto-convert .potx/.odp",
        Event.inspect "a.potx"], Outcome.ok) := rfl

example :
    mainRun ⟨some "a.potx", fun _ => false, some "soffice", "T", true, true⟩ =
      ([Event.mkdtemp "T", Event.runSoffice "soffice" "a.potx" "T",
        Event.printLine "Conversion produced no .pptx; will attempt to open original file",
        Event.inspect "a.potx", Event.rmtree "T"], Outcome.ok) := rfl

example :
    mainRun ⟨some "a.potx", fun s => s == "T/a.pptx", some "soffice", "T", true, false⟩ =
      ([Event.mkdtemp "T", Event.runSoffice "soffice" "a.potx" "T",
        Event.printLine "Converted a.potx -> T/a.pptx",
        Event.inspect "T/a.pptx", Event.rmtree "T"], Outcome.exc) := rfl

example : mainRun ⟨none, fun _ => false, none, "T", true, true⟩ = ([], Outcome.usageError) := rfl

example :
    mainRun ⟨none, fun s => s == "disco-template.potx", none, "T", true, true⟩ =
      ([Event.printLine "LibreOffice (soffice) not found; cannot auto-convert .potx/.odp",
        Event.inspect "disco-template.potx"], Outcome.ok) := rfl

theorem pyTake_length (n : Nat) (s : String) : (pyTake n s).length = min n s.length := by
  simp [pyTake]

theorem dropWhile_all_eq_nil {p : Char → Bool} :
    ∀ l : List Char, l.all p = true → l.dropWhile p = []
  | [], _ => rfl
  | c :: t, h => by
    simp only [List.all_cons, Bool.and_eq_true] at h
    simp [List.dropWhile_cons, h.1, dropWhile_all_eq_nil t h.2]

theorem processText_eq_empty_of_whitespace (s : String)
    (h : s.data.all Char.isWhitespace = true) : processText s = "" := by
  unfold processText pyStrip pyReplaceNL
  rw [dropWhile_all_eq_nil _ h]
  rfl

theorem pyJoin_length :
    ∀ ts : List String,
      (pyJoin ts).length = (ts.map String.length).sum + 3 * (ts.length - 1)
  | [] => by simp [pyJoin]
  | [t] => by simp [pyJoin]
  | t :: u :: rest => by
    have ih := pyJoin_length (u :: rest)
    have h3 : (" | " : String).length = 3 := rfl
    simp only [pyJoin, String.length_append, List.map_cons, List.sum_cons,
      List.length_cons] at *
    omega

/-- C1: for every slide and shape, deriving the optional per-shape fields
(title marker, placeholder index, text snippet, image descriptor) never
raises out of the per-shape step (`shapeLine` is total on every shape,
including ones whose wrapped accessors raise): when the
`slide.shapes.title` access raises the marker is omitted, when
`placeholder_format.idx` raises the placeholder field is omitted, and
when the image or its bytes cannot be read the fixed fallback
`(could not read image)` is printed in place of the image descriptor. -/
theorem c1_per_shape_fields_never_raise (ta : PyResult (Option Shape)) (si : Nat) (sh : Shape) :
    (ta = PyResult.raised →
      shapeLine ta si sh =
        "Shape " ++ (toString si ++ (": " ++ (sh.typeName ++
          (phPart sh ++ (textPart sh ++ picPart sh)))))) ∧
    (sh.placeholderIdx = PyResult.raised →
      shapeLine ta si sh =
        "Shape " ++ (toString si ++ (": " ++ (sh.typeName ++
          (titleMark ta sh ++ (textPart sh ++ picPart sh)))))) ∧
    ((sh.isPicture || sh.hasImageAttr) = true → sh.image = PyResult.raised →
      shapeLine ta si sh =
        "Shape " ++ (toString si ++ (": " ++ (sh.typeName ++
          (titleMark ta sh ++ (phPart sh ++ (textPart sh ++
            " | picture: (could not read image)"))))))) := by
  refine ⟨fun h => ?_, fun h => ?_, fun hc him => ?_⟩
  · subst h
    simp only [shapeLine, titleMark, String.empty_append]
  · simp only [shapeLine, phPart, h, ite_self, String.empty_append]
  · simp only [shapeLine, picPart, hc, him, if_true]

theorem c1_witness :
    (PyResult.raised = (PyResult.raised : PyResult (Option Shape))) ∧
    shapeLine (PyResult.raised : PyResult (Option Shape)) 2
        ⟨7, "PICTURE", true, true, true, PyResult.raised, false, "", PyResult.raised⟩ =
      "Shape " ++ ("2" ++ (": " ++ ("PICTURE" ++
        (titleMark PyResult.raised ⟨7, "PICTURE", true, true, true, PyResult.raised, false, "", PyResult.raised⟩ ++
          (phPart ⟨7, "PICTURE", true, true, true, PyResult.raised, false, "", PyResult.raised⟩ ++
            (textPart ⟨7, "PICTURE", true, true, true, PyResult.raised, false, "", PyResult.raised⟩ ++
              " | picture: (could not read image)")))))) :=
  ⟨rfl,
    (c1_per_shape_fields_never_raise PyResult.raised 2
        ⟨7, "PICTURE", true, true, true, PyResult.raised, false, "", PyResult.raised⟩).2.2
      rfl rfl⟩

/-- C5: a shape that is the slide's designated title shape (the shape the
`slide.shapes.title` accessor yields) always carries the `[TITLE]` marker
in its shape line. -/
theorem c5_title_shape_marked (ta : PyResult (Option Shape)) (si : Nat) (sh t : Shape)
    (hta : ta = PyResult.ok (some t)) (hsh : sh = t) :
    shapeLine ta si sh =
      "Shape " ++ (toString si ++ (": " ++ (sh.typeName ++
        (" [TITLE]" ++ (phPart sh ++ (textPart sh ++ picPart sh)))))) := by
  subst hta; subst hsh
  simp only [shapeLine, titleMark, if_pos rfl, if_true]

theorem c5_witness :
    shapeLine
        (PyResult.ok (some ⟨3, "PLACEHOLDER", false, false, false, PyResult.raised, false, "", PyResult.raised⟩))
        1 ⟨3, "PLACEHOLDER", false, false, false, PyResult.raised, false, "", PyResult.raised⟩ =
      "Shape 1: PLACEHOLDER [TITLE]" :=
  (c5_title_shape_marked _ 1 _ _ rfl rfl).trans rfl

/-- C6: a slide with no title shape, and a slide whose title shape has
empty or whitespace-only text, produce no `Title:` line; when the title
shape has a text frame and its processed text is non-empty, that text is
printed with surrounding whitespace stripped and line breaks replaced by
spaces. -/
theorem c6_title_line (slide : Slide) :
    (slide.titleAccess = PyResult.ok none → titleLines slide = []) ∧
    (∀ ts, slide.titleAccess = PyResult.ok (some ts) →
      ts.text.data.all Char.isWhitespace = true → titleLines slide = []) ∧
    (∀ ts, slide.titleAccess = PyResult.ok (some ts) → ts.hasTextFrame = true →
      processText ts.text ≠ "" →
      titleLines slide = ["Title: " ++ processText ts.text]) := by
  refine ⟨fun h => ?_, fun ts h hws => ?_, fun ts h htf hne => ?_⟩
  · simp [titleLines, h]
  · simp [titleLines, h, processText_eq_empty_of_whitespace _ hws]
  · simp [titleLines, h, htf, hne]

theorem c6_witness :
    titleLines ⟨[], PyResult.ok none, none, PyResult.raised, []⟩ = [] ∧
    titleLines
        ⟨[], PyResult.ok (some ⟨0, "PLACEHOLDER", false, false, false, PyResult.raised, true, " \n ", PyResult.raised⟩),
          none, PyResult.raised, []⟩ = [] ∧
    titleLines
        ⟨[], PyResult.ok (some ⟨0, "PLACEHOLDER", false, false, false, PyResult.raised, true, " Hi\nThere ", PyResult.raised⟩),
          none, PyResult.raised, []⟩ =
      ["Title: " ++ processText " Hi\nThere "] :=
  ⟨(c6_title_line _).1 rfl,
   (c6_title_line _).2.1 _ rfl (by decide),
   (c6_title_line _).2.2 _ rfl rfl (by decide)⟩

/-- C4: every shape-text snippet is at most 303 characters: the first 300
characters of the processed text with a 3-character ellipsis appended
exactly when the text exceeds 300 characters; and every printed `Notes:`
body is at most 400 characters. -/
theorem c4_truncation_bounds :
    (∀ txt : String,
      (snippet txt).length ≤ 303 ∧
      (txt.length ≤ 300 → snippet txt = pyTake 300 txt) ∧
      (snippet txt = pyTake 300 txt ++ "..." ↔ 300 < txt.length)) ∧
    (∀ (slide : Slide) (line : String), line ∈ notesLines slide →
      ∃ body, line = "Notes: " ++ body ∧ body.length ≤ 400) := by
  constructor
  · intro txt
    refine ⟨?_, fun hle => ?_, ?_, fun hgt => ?_⟩
    · by_cases h : 300 < txt.length
      · have : (snippet txt).length = min 300 txt.length + 3 := by
          simp [snippet, h, pyTake_length]
          rfl
        omega
      · have : (snippet txt).length = min 300 txt.length + 0 := by
          simp [snippet, h, pyTake_length]
        omega
    · have : ¬300 < txt.length := by omega
      simp [snippet, this]
    · intro he
      by_contra hn
      have h1 : snippet txt = pyTake 300 txt := by simp [snippet, hn]
      have h2 : (pyTake 300 txt).length = (pyTake 300 txt ++ "...").length :=
        congrArg String.length (h1.symm.trans he)
      have h3 : ("..." : String).length = 3 := rfl
      rw [String.length_append] at h2
      omega
    · simp [snippet, hgt]
  · intro slide line hline
    unfold notesLines at hline
    cases hna : slide.notesAccess with
    | raised => rw [hna] at hline; simp at hline
    | ok ns =>
      rw [hna] at hline
      simp only at hline
      split at hline
      · simp at hline
      · rw [List.mem_singleton] at hline
        refine ⟨pyTake 400 (pyJoin (notesTextsOf ns)), hline, ?_⟩
        rw [pyTake_length]
        omega

theorem c4_witness :
    snippet (String.mk (List.replicate 301 'a')) =
      pyTake 300 (String.mk (List.replicate 301 'a')) ++ "..." ∧
    (∃ body,
      "Notes: " ++ pyTake 400 (pyJoin (notesTextsOf
          [⟨0, "", false, false, false, PyResult.raised, true, "note", PyResult.raised⟩])) =
        "Notes: " ++ body ∧ body.length ≤ 400) :=
  ⟨(c4_truncation_bounds.1 _).2.2.mpr
     (by rw [String.length_mk, List.length_replicate]; omega),
   c4_truncation_bounds.2
     ⟨[], PyResult.ok none, none,
       PyResult.ok [⟨0, "", false, false, false, PyResult.raised, true, "note", PyResult.raised⟩], []⟩
     _ (by decide)⟩

/-- C9: when the joined notes text exceeds 400 characters, the `Notes:`
line body is exactly the first 400 characters of the `' | '`-joined text
with no truncation marker appended, and the 3-character separators count
toward the limit (the joined length is the sum of the note texts'
lengths plus 3 per separator, and the cut happens on the joined
string). -/
theorem c9_notes_exact_cut (slide : Slide) (ns : List Shape)
    (h : slide.notesAccess = PyResult.ok ns) :
    (notesTextsOf ns ≠ [] →
      notesLines slide = ["Notes: " ++ pyTake 400 (pyJoin (notesTextsOf ns))]) ∧
    (pyJoin (notesTextsOf ns)).length =
      ((notesTextsOf ns).map String.length).sum + 3 * ((notesTextsOf ns).length - 1) ∧
    (400 < (pyJoin (notesTextsOf ns)).length →
      (pyTake 400 (pyJoin (notesTextsOf ns))).length = 400) := by
  refine ⟨fun hne => ?_, pyJoin_length _, fun h400 => ?_⟩
  · simp [notesLines, h, hne]
  · rw [pyTake_length]; omega

theorem c9_witness :
    notesLines
        ⟨[], PyResult.ok none, none,
          PyResult.ok [⟨0, "", false, false, false, PyResult.raised, true, "one", PyResult.raised⟩,
            ⟨1, "", false, false, false, PyResult.raised, true, "two", PyResult.raised⟩], []⟩ =
      ["Notes: " ++ pyTake 400 (pyJoin (notesTextsOf
        [⟨0, "", false, false, false, PyResult.raised, true, "one", PyResult.raised⟩,
         ⟨1, "", false, false, false, PyResult.raised, true, "two", PyResult.raised⟩]))] :=
  (c9_notes_exact_cut _ _ rfl).1 (by decide)

/-- C10: the `Images in slide:` header appears for a slide exactly when
some relationship-linked part has a content type starting with `image/`:
with no such part the block is empty, and with at least one such part
the header is printed followed by a non-empty list of item lines. -/
theorem c10_images_block_iff_image_part (slide : Slide) :
    ((∀ r ∈ slide.relatedParts, pyStartsWith r.contentType "image/" = false) →
      imageLines slide = []) ∧
    (∀ r ∈ slide.relatedParts, pyStartsWith r.contentType "image/" = true →
      ∃ items, imageLines slide = "Images in slide:" :: items ∧ items ≠ []) := by
  constructor
  · intro hall
    have hnil : imageItems slide.relatedParts = [] := by
      rw [imageItems, List.filterMap_eq_nil_iff]
      intro r hr
      simp [hall r hr]
    simp [imageLines, hnil]
  · intro r hr hs
    have hmem : partDesc r ∈ imageItems slide.relatedParts := by
      rw [imageItems, List.mem_filterMap]
      exact ⟨r, hr, by simp [hs]⟩
    have hne : imageItems slide.relatedParts ≠ [] := List.ne_nil_of_mem hmem
    refine ⟨(imageItems slide.relatedParts).map (fun it => " - " ++ it), ?_, ?_⟩
    · simp [imageLines, hne]
    · simp [hne]

theorem c10_witness :
    imageLines ⟨[], PyResult.ok none, none, PyResult.raised,
        [⟨"/docProps/thumbnail.jpeg", "application/xml", PyResult.ok []⟩]⟩ = [] ∧
    (∃ items,
      imageLines ⟨[], PyResult.ok none, none, PyResult.raised,
          [⟨"/ppt/media/image1.png", "image/png", PyResult.ok [0, 1]⟩]⟩ =
        "Images in slide:" :: items ∧ items ≠ []) :=
  ⟨(c10_images_block_iff_image_part _).1 (by decide),
   (c10_images_block_iff_image_part _).2
     ⟨"/ppt/media/image1.png", "image/png", PyResult.ok [0, 1]⟩ (by simp) (by decide)⟩

theorem pyExtData_suffix (l : List Char) : pyExtData l <:+ l := by
  unfold pyExtData
  split
  · exact List.nil_suffix
  · split
    · split
      · exact List.drop_suffix _ _
      · exact List.nil_suffix
    · split
      · split
        · exact List.drop_suffix _ _
        · exact List.nil_suffix
      · exact List.nil_suffix

theorem suffix_eq_of_length {s₁ s₂ l : List Char} (h₁ : s₁ <:+ l) (h₂ : s₂ <:+ l)
    (hlen : s₁.length = s₂.length) : s₁ = s₂ := by
  obtain ⟨p₁, hp₁⟩ := h₁
  obtain ⟨p₂, hp₂⟩ := h₂
  have he : p₁ ++ s₁ = p₂ ++ s₂ := hp₁.trans hp₂.symm
  have hpl : p₁.length = p₂.length := by
    have := congrArg List.length he
    simp only [List.length_append] at this
    omega
  exact (List.append_inj he hpl).2

/-- A file whose `splitext` extension lowers to `.potx` cannot have a
lowered name ending in `.pptx` (the extension is a suffix of the name). -/
theorem ext_potx_not_endswith_pptx (f : String)
    (h : pyLower (pyExt f) = ".potx") : pyEndsWith (pyLower f) ".pptx" = false := by
  have hdata : (pyExtData f.data).map Char.toLower = ".potx".data := congrArg String.data h
  have hsuf : ".potx".data <:+ (pyLower f).data := by
    have hm := (pyExtData_suffix f.data).map Char.toLower
    rw [hdata] at hm
    exact hm
  cases hEW : pyEndsWith (pyLower f) ".pptx" with
  | false => rfl
  | true =>
    exfalso
    have hsuf2 : ".pptx".data <:+ (pyLower f).data := by
      unfold pyEndsWith at hEW
      exact List.isSuffixOf_iff_suffix.mp hEW
    have : (".potx".data : List Char) = ".pptx".data :=
      suffix_eq_of_length hsuf hsuf2 (by decide)
    exact absurd this (by decide)

theorem convertStep_tmpdir (env : Env) (f : String) (d : String)
    (h : Event.mkdtemp d ∈ (convertStep env f).1) :
    (convertStep env f).2.2 = some d := by
  by_cases hb : ((pyLower (pyExt f) == ".potx" || pyLower (pyExt f) == ".odp")
      && !(pyEndsWith (pyLower f) ".pptx")) = true
  · cases hsof : env.soffice with
    | none => simp [convertStep, hb, hsof] at h
    | some sof =>
      by_cases hok : env.convertOk = true
      · by_cases hex : env.existsF (env.tmpName ++ "/" ++ (pyRoot (pyBasename f) ++ ".pptx")) = true
        · simp [convertStep, hb, hsof, hok, hex] at h ⊢
          simp [h]
        · simp [convertStep, hb, hsof, hok, hex] at h ⊢
          simp [h]
      · simp [convertStep, hb, hsof, hok] at h ⊢
        simp [h]
  · simp [convertStep, hb] at h

/-- C2: whenever `main` creates a temporary conversion directory, its
removal (`shutil.rmtree` in the `finally` block) is performed on every
exit path of the run — successful inspection, conversion failure, and
inspection failure alike. -/
theorem mainRun_trace_none (env : Env) (hres : resolveFile env = none) :
    (mainRun env).1 = [] := by
  unfold mainRun
  rw [hres]

theorem mainRun_trace_some (env : Env) (f : String) (hres : resolveFile env = some f) :
    (mainRun env).1 =
      (convertStep env f).1 ++ [Event.inspect (convertStep env f).2.1]
        ++ (match (convertStep env f).2.2 with
            | some dd => [Event.rmtree dd]
            | none => []) := by
  unfold mainRun
  rw [hres]

theorem c2_tmpdir_always_removed (env : Env) (d : String)
    (h : Event.mkdtemp d ∈ (mainRun env).1) :
    Event.rmtree d ∈ (mainRun env).1 := by
  cases hres : resolveFile env with
  | none => rw [mainRun_trace_none env hres] at h; simp at h
  | some f =>
    rw [mainRun_trace_some env f hres] at h ⊢
    simp only [List.mem_append] at h ⊢
    rcases h with (h | h) | h
    · have h22 := convertStep_tmpdir env f d h
      right
      rw [h22]
      simp
    · simp at h
    · rcases h22 : (convertStep env f).2.2 with _ | dd
      · rw [h22] at h; simp at h
      · rw [h22] at h; simp at h

theorem c2_witness :
    Event.rmtree "T" ∈
      (mainRun ⟨some "a.potx", fun _ => false, some "soffice", "T", true, false⟩).1 :=
  c2_tmpdir_always_removed ⟨some "a.potx", fun _ => false, some "soffice", "T", true, false⟩
    "T" (by decide)

theorem firstExisting_eq_none_iff (F : String → Bool) :
    ∀ l : List String, firstExisting F l = none ↔ ∀ c ∈ l, F c = false := by
  intro l
  induction l with
  | nil => simp [firstExisting]
  | cons a t ih => by_cases ha : F a = true <;> simp [firstExisting, ha, ih]

theorem firstExisting_eq_some (F : String → Bool) :
    ∀ (l : List String) (c : String), firstExisting F l = some c →
      F c = true ∧ ∃ pre suf, l = pre ++ c :: suf ∧ ∀ p ∈ pre, F p = false := by
  intro l
  induction l with
  | nil => intro c h; simp [firstExisting] at h
  | cons a t ih =>
    intro c h
    by_cases ha : F a = true
    · rw [firstExisting, if_pos ha] at h
      injection h with h
      subst h
      exact ⟨ha, [], t, rfl, by simp⟩
    · rw [firstExisting, if_neg ha] at h
      obtain ⟨hc, pre, suf, ht, hpre⟩ := ih c h
      refine ⟨hc, a :: pre, suf, by rw [ht]; rfl, ?_⟩
      intro p hp
      rcases List.mem_cons.mp hp with rfl | hp
      · exact Bool.eq_false_iff.mpr ha
      · exact hpre p hp

/-- C7: with no file argument, `main` tries the fixed default candidate
list in order and proceeds exactly as if the first existing candidate
had been passed; when no candidate exists it ends in an argparse usage
error (`parser.error`), not an unhandled exception. -/
theorem c7_default_candidates (env : Env) (h : env.fileArg = none) :
    ((∀ c ∈ defaultCandidates, env.existsF c = false) →
      mainRun env = ([], Outcome.usageError)) ∧
    (∀ c, firstExisting env.existsF defaultCandidates = some c →
      env.existsF c = true ∧
      (∃ pre suf, defaultCandidates = pre ++ c :: suf ∧ ∀ p ∈ pre, env.existsF p = false) ∧
      mainRun env = mainRun { env with fileArg := some c }) := by
  constructor
  · intro hall
    have hres : resolveFile env = none := by
      simp [resolveFile, h, (firstExisting_eq_none_iff _ _).2 hall]
    unfold mainRun
    rw [hres]
  · intro c hc
    obtain ⟨h1, h2⟩ := firstExisting_eq_some _ _ _ hc
    refine ⟨h1, h2, ?_⟩
    have e1 : resolveFile env = some c := by simp [resolveFile, h, hc]
    have e2 : resolveFile { env with fileArg := some c } = some c := by
      simp [resolveFile]
    unfold mainRun
    rw [e1, e2]
    rfl

theorem c7_witness :
    mainRun ⟨none, fun _ => false, none, "T", true, true⟩ = ([], Outcome.usageError) :=
  (c7_default_candidates ⟨none, fun _ => false, none, "T", true, true⟩ rfl).1
    (fun _ _ => rfl)

/-- C8: for a `.potx` input (extension lowered by `splitext` is `.potx`)
when no `soffice` binary is on the search path, `main` prints the fixed
"not found" warning and still calls `summarize_presentation` on the
original file; the run only fails if that inspection itself raises. -/
theorem c8_no_soffice_falls_back (env : Env) (f : String) (hf : env.fileArg = some f)
    (hext : pyLower (pyExt f) = ".potx") (hsof : env.soffice = none) :
    (mainRun env).1 =
      [Event.printLine "LibreOffice (soffice) not found; cannot auto-convert .potx/.odp",
       Event.inspect f] ∧
    (mainRun env).2 = (if env.inspectOk then Outcome.ok else Outcome.exc) := by
  have hres : resolveFile env = some f := by simp [resolveFile, hf]
  have hEW := ext_potx_not_endswith_pptx f hext
  have hcs : convertStep env f =
      ([Event.printLine "LibreOffice (soffice) not found; cannot auto-convert .potx/.odp"],
       f, none) := by
    unfold convertStep
    rw [hext]
    simp [hsof, hEW]
  constructor
  · rw [mainRun_trace_some env f hres, hcs]
    rfl
  · unfold mainRun
    rw [hres]

theorem c8_witness :
    (mainRun ⟨some "x.potx", fun _ => false, none, "T", true, true⟩).1 =
      [Event.printLine "LibreOffice (soffice) not found; cannot auto-convert .potx/.odp",
       Event.inspect "x.potx"] :=
  (c8_no_soffice_falls_back ⟨some "x.potx", fun _ => false, none, "T", true, true⟩
    "x.potx" rfl (by decide) rfl).1

/-- `true` exactly when the line starts with the given literal character
prefix; used to recognise section headers and shape lines in the
report. -/
def hasPrefixLit (pfx : List Char) (s : String) : Bool :=
  decide (s.data.take pfx.length = pfx)

/-- A slide-section header line `--- Slide i ---`. -/
def isSlideHeader (s : String) : Bool := hasPrefixLit "--- Slide ".data s

/-- A per-shape line `Shape si: ...`. -/
def isShapeLine (s : String) : Bool := hasPrefixLit "Shape ".data s

theorem hasPrefixLit_of_data_append (pfx r : List Char) (s : String)
    (h : s.data = pfx ++ r) : hasPrefixLit pfx s = true := by
  unfold hasPrefixLit
  rw [h, List.take_left]
  simp

theorem hasPrefixLit_false_head (c : Char) (pfx : List Char) (c' : Char) (r : List Char)
    (s : String) (h : s.data = c' :: r) (hne : c' ≠ c) :
    hasPrefixLit (c :: pfx) s = false := by
  unfold hasPrefixLit
  rw [h, List.length_cons, List.take_succ_cons]
  exact decide_eq_false (fun heq => hne (by injection heq))

theorem hasPrefixLit_false_nil (c : Char) (pfx : List Char) (s : String)
    (h : s.data = []) : hasPrefixLit (c :: pfx) s = false := by
  unfold hasPrefixLit
  rw [h]
  simp

theorem hdrT_header (i : Nat) :
    isSlideHeader ("--- Slide " ++ (toString i ++ " ---")) = true :=
  hasPrefixLit_of_data_append _ _ _ rfl

theorem hdrF_title (t : String) : isSlideHeader ("Title: " ++ t) = false :=
  hasPrefixLit_false_head '-' _ 'T' _ _ rfl (by decide)

theorem hdrF_layout (t : String) : isSlideHeader ("Layout: " ++ t) = false :=
  hasPrefixLit_false_head '-' _ 'L' _ _ rfl (by decide)

theorem hdrF_shape (ta : PyResult (Option Shape)) (si : Nat) (sh : Shape) :
    isSlideHeader (shapeLine ta si sh) = false :=
  hasPrefixLit_false_head '-' _ 'S' _ _ rfl (by decide)

theorem hdrF_notes (t : String) : isSlideHeader ("Notes: " ++ t) = false :=
  hasPrefixLit_false_head '-' _ 'N' _ _ rfl (by decide)

theorem hdrF_images : isSlideHeader "Images in slide:" = false :=
  hasPrefixLit_false_head '-' _ 'I' _ _ rfl (by decide)

theorem hdrF_item (t : String) : isSlideHeader (" - " ++ t) = false :=
  hasPrefixLit_false_head '-' _ ' ' _ _ rfl (by decide)

theorem hdrF_empty : isSlideHeader "" = false :=
  hasPrefixLit_false_nil '-' _ _ rfl

theorem hdrF_file (p : String) : isSlideHeader ("File: " ++ p) = false :=
  hasPrefixLit_false_head '-' _ 'F' _ _ rfl (by decide)

theorem hdrF_count (t : String) : isSlideHeader ("Slide count: " ++ t) = false :=
  hasPrefixLit_false_head '-' _ 'S' _ _ rfl (by decide)

theorem shpT_shape (ta : PyResult (Option Shape)) (si : Nat) (sh : Shape) :
    isShapeLine (shapeLine ta si sh) = true :=
  hasPrefixLit_of_data_append _ _ _ rfl

theorem shpF_header (i : Nat) :
    isShapeLine ("--- Slide " ++ (toString i ++ " ---")) = false :=
  hasPrefixLit_false_head 'S' _ '-' _ _ rfl (by decide)

theorem shpF_title (t : String) : isShapeLine ("Title: " ++ t) = false :=
  hasPrefixLit_false_head 'S' _ 'T' _ _ rfl (by decide)

theorem shpF_layout (t : String) : isShapeLine ("Layout: " ++ t) = false :=
  hasPrefixLit_false_head 'S' _ 'L' _ _ rfl (by decide)

theorem shpF_notes (t : String) : isShapeLine ("Notes: " ++ t) = false :=
  hasPrefixLit_false_head 'S' _ 'N' _ _ rfl (by decide)

theorem shpF_images : isShapeLine "Images in slide:" = false :=
  hasPrefixLit_false_head 'S' _ 'I' _ _ rfl (by decide)

theorem shpF_item (t : String) : isShapeLine (" - " ++ t) = false :=
  hasPrefixLit_false_head 'S' _ ' ' _ _ rfl (by decide)

theorem shpF_empty : isShapeLine "" = false :=
  hasPrefixLit_false_nil 'S' _ _ rfl

theorem mem_titleLines {s : Slide} {a : String} (h : a ∈ titleLines s) :
    ∃ t, a = "Title: " ++ t := by
  unfold titleLines at h
  split at h
  · split at h
    · split at h
      · exact ⟨_, List.mem_singleton.mp h⟩
      · simp at h
    · simp at h
  · simp at h

theorem mem_layoutLines {s : Slide} {a : String} (h : a ∈ layoutLines s) :
    ∃ t, a = "Layout: " ++ t := by
  unfold layoutLines at h
  split at h
  · split at h
    · exact ⟨_, List.mem_singleton.mp h⟩
    · simp at h
  · simp at h

theorem mem_notesLines {s : Slide} {a : String} (h : a ∈ notesLines s) :
    ∃ t, a = "Notes: " ++ t := by
  unfold notesLines at h
  split at h
  · dsimp only at h
    split at h
    · simp at h
    · exact ⟨_, List.mem_singleton.mp h⟩
  · simp at h

theorem mem_imageLines {s : Slide} {a : String} (h : a ∈ imageLines s) :
    a = "Images in slide:" ∨ ∃ t, a = " - " ++ t := by
  unfold imageLines at h
  dsimp only at h
  split at h
  · simp at h
  · rcases List.mem_cons.mp h with rfl | h
    · exact Or.inl rfl
    · obtain ⟨it, _, rfl⟩ := List.mem_map.mp h
      exact Or.inr ⟨it, rfl⟩

theorem slideSection_filter_header (i : Nat) (s : Slide) :
    (slideSection i s).filter isSlideHeader = ["--- Slide " ++ (toString i ++ " ---")] := by
  unfold slideSection
  rw [List.filter_cons_of_pos (hdrT_header i)]
  have hnil :
      ((titleLines s ++ layoutLines s
        ++ (pyEnum 1 s.shapes).map (fun p => shapeLine s.titleAccess p.1 p.2)
        ++ notesLines s ++ imageLines s ++ [""]).filter isSlideHeader) = [] := by
    rw [List.filter_eq_nil_iff]
    intro a ha
    simp only [List.mem_append] at ha
    rcases ha with ((((ha | ha) | ha) | ha) | ha) | ha
    · obtain ⟨t, rfl⟩ := mem_titleLines ha
      simp [hdrF_title]
    · obtain ⟨t, rfl⟩ := mem_layoutLines ha
      simp [hdrF_layout]
    · obtain ⟨p, _, rfl⟩ := List.mem_map.mp ha
      simp [hdrF_shape]
    · obtain ⟨t, rfl⟩ := mem_notesLines ha
      simp [hdrF_notes]
    · rcases mem_imageLines ha with rfl | ⟨t, rfl⟩
      · simp [hdrF_images]
      · simp [hdrF_item]
    · rw [List.mem_singleton.mp ha]
      simp [hdrF_empty]
  rw [hnil]

theorem slideSection_filter_shape (i : Nat) (s : Slide) :
    (slideSection i s).filter isShapeLine =
      (pyEnum 1 s.shapes).map (fun p => shapeLine s.titleAccess p.1 p.2) := by
  unfold slideSection
  rw [List.filter_cons_of_neg (by rw [shpF_header i]; simp)]
  rw [List.filter_append, List.filter_append, List.filter_append,
    List.filter_append, List.filter_append]
  have h1 : (titleLines s).filter isShapeLine = [] := by
    rw [List.filter_eq_nil_iff]
    intro a ha
    obtain ⟨t, rfl⟩ := mem_titleLines ha
    simp [shpF_title]
  have h2 : (layoutLines s).filter isShapeLine = [] := by
    rw [List.filter_eq_nil_iff]
    intro a ha
    obtain ⟨t, rfl⟩ := mem_layoutLines ha
    simp [shpF_layout]
  have h3 : ((pyEnum 1 s.shapes).map (fun p => shapeLine s.titleAccess p.1 p.2)).filter
      isShapeLine =
      (pyEnum 1 s.shapes).map (fun p => shapeLine s.titleAccess p.1 p.2) := by
    rw [List.filter_eq_self]
    intro a ha
    obtain ⟨p, _, rfl⟩ := List.mem_map.mp ha
    simp [shpT_shape]
  have h4 : (notesLines s).filter isShapeLine = [] := by
    rw [List.filter_eq_nil_iff]
    intro a ha
    obtain ⟨t, rfl⟩ := mem_notesLines ha
    simp [shpF_notes]
  have h5 : (imageLines s).filter isShapeLine = [] := by
    rw [List.filter_eq_nil_iff]
    intro a ha
    rcases mem_imageLines ha with rfl | ⟨t, rfl⟩
    · simp [shpF_images]
    · simp [shpF_item]
  have h6 : ([""] : List String).filter isShapeLine = [] := by
    simp [List.filter, shpF_empty]
  rw [h1, h2, h3, h4, h5, h6]
  simp

theorem c3_aux (slides : List Slide) : ∀ k : Nat,
    (((pyEnum k slides).map (fun p => slideSection p.1 p.2)).flatten).filter isSlideHeader
      = (List.range slides.length).map
          (fun j => "--- Slide " ++ (toString (k + j) ++ " ---")) := by
  induction slides with
  | nil => intro k; simp [pyEnum]
  | cons s t ih =>
    intro k
    have hsh : ∀ j : Nat, k + 1 + j = k + (j + 1) := fun j => by omega
    simp only [pyEnum, List.map_cons, List.flatten_cons, List.filter_append,
      slideSection_filter_header, ih (k + 1), List.length_cons, List.range_succ_eq_map,
      List.map_map, Function.comp, List.singleton_append, Nat.succ_eq_add_one,
      Nat.add_zero, hsh]
    simp only [Function.comp_def, Nat.succ_eq_add_one]

/-- C3: for a document with `N` slides the report contains exactly `N`
slide-section header lines, numbered `1..N` in document order, and
within each slide section the shape lines are exactly one line per shape
in the order the document model yields the shapes — no reordering and no
deduplication of slides or shapes. -/
theorem c3_report_structure (prs : Prs) (path : String) :
    ((summarize_presentation prs path).filter isSlideHeader =
      (List.range prs.slides.length).map
        (fun i => "--- Slide " ++ (toString (i + 1) ++ " ---"))) ∧
    (∀ (i : Nat) (s : Slide),
      (slideSection i s).filter isShapeLine =
        (pyEnum 1 s.shapes).map (fun p => shapeLine s.titleAccess p.1 p.2)) := by
  constructor
  · unfold summarize_presentation
    rw [List.filter_append]
    have h0 : (["File: " ++ path, "Slide count: " ++ toString prs.slides.length, ""] :
        List String).filter isSlideHeader = [] := by
      simp [List.filter, hdrF_file, hdrF_count, hdrF_empty]
    rw [h0, List.nil_append, c3_aux prs.slides 1]
    have hsh : ∀ j : Nat, 1 + j = j + 1 := fun j => by omega
    simp only [hsh]
  · exact slideSection_filter_shape
